import Mathlib

/-!
Shallow embedding of the scoring engine of `riichi-hand-rs` (`src/points.rs`).

The Rust newtypes `Han`, `Fu` and `Honbas` are transparent wrappers around
`i32`; they are embedded as `Int`.  The generic points base type `T` is
embedded as `Int` (the behaviour of the arbitrary-precision instantiation;
the `i64` intermediate of the negative-power branch is exact in `Int`).
Rust's `/` on signed integers truncates toward zero, which is `Int.tdiv`.
-/

namespace Riichi

/-- Point calculation mode (`PointsCalculationMode` in `points.rs`). -/
inductive PointsCalculationMode where
  | Default
  | Loose
  | Unlimited
deriving DecidableEq

/-- Internal mode of a points value (`PointsMode` in `points.rs`). -/
inductive PointsMode where
  | Calculated (has_tsumo : Bool) (has_ron : Bool)
  | Limited
deriving DecidableEq

/-- Rust `PointsMode::has_tsumo`. -/
def PointsMode.has_tsumo : PointsMode → Bool
  | .Calculated t _ => t
  | .Limited => true

/-- Rust `PointsMode::has_ron`. -/
def PointsMode.has_ron : PointsMode → Bool
  | .Calculated _ r => r
  | .Limited => true

/-- Rust `PointsCustom<T>` with `T = Int`; field order as in the Rust struct. -/
structure PointsCustom where
  base_points : Int
  honbas : Int
  mode : PointsMode
deriving DecidableEq

/-- Rust `PointCalculationError` in `points.rs`. -/
inductive PointCalculationError where
  | InvalidHan (han : Int)
  | InvalidFu (fu : Int)
  | InvalidHonbas (honbas : Int)
deriving DecidableEq

instance {ε α : Type} [DecidableEq ε] [DecidableEq α] : DecidableEq (Except ε α) := fun a b =>
  match a, b with
  | .error x, .error y =>
      if h : x = y then isTrue (congrArg Except.error h)
      else isFalse (fun hh => h (Except.error.inj hh))
  | .error _, .ok _ => isFalse (fun hh => Except.noConfusion hh)
  | .ok _, .error _ => isFalse (fun hh => Except.noConfusion hh)
  | .ok x, .ok y =>
      if h : x = y then isTrue (congrArg Except.ok h)
      else isFalse (fun hh => h (Except.ok.inj hh))

/-- Rust `PointsCustom::new_limited`. -/
def new_limited (base_points honbas : Int) : PointsCustom :=
  { base_points := base_points, mode := .Limited, honbas := honbas }

/-- Rust `PointsCustom::mangan`. -/
def mangan (honbas : Int) : PointsCustom := new_limited 2000 honbas

/-- Rust `PointsCustom::haneman`. -/
def haneman (honbas : Int) : PointsCustom := new_limited 3000 honbas

/-- Rust `PointsCustom::baiman`. -/
def baiman (honbas : Int) : PointsCustom := new_limited 4000 honbas

/-- Rust `PointsCustom::sanbaiman`. -/
def sanbaiman (honbas : Int) : PointsCustom := new_limited 6000 honbas

/-- Rust `PointsCustom::yakuman`. -/
def yakuman (honbas : Int) : PointsCustom := new_limited 8000 honbas

/-- Rust `PointsCustom::new_calculated`. -/
def new_calculated (base_points : Int) (has_tsumo has_ron : Bool) (honbas : Int) :
    PointsCustom :=
  { base_points := base_points, mode := .Calculated has_tsumo has_ron, honbas := honbas }

/-- Rust `PointsCustom::is_limited`. -/
def PointsCustom.is_limited (p : PointsCustom) : Bool :=
  match p.mode with
  | .Calculated _ _ => false
  | .Limited => true

/-- Rust `PointsCustom::is_calculated`. -/
def PointsCustom.is_calculated (p : PointsCustom) : Bool :=
  match p.mode with
  | .Calculated _ _ => true
  | .Limited => false

/-- Rust `round_up_to` in `points.rs`; Rust `/` on integers is `Int.tdiv`. -/
def round_up_to (num divisor : Int) : Int :=
  if 0 < num then ((num + (divisor - 1)).tdiv divisor) * divisor
  else (num.tdiv divisor) * divisor

/-- Rust `round_up_points` in `points.rs`. -/
def round_up_points (num : Int) : Int := round_up_to num 100

/-- Rust `PointsCustom::tsumo_honba_points`. -/
def tsumo_honba_points (p : PointsCustom) : Int := p.honbas * 100

/-- Rust `PointsCustom::ron_honba_points`. -/
def ron_honba_points (p : PointsCustom) : Int := p.honbas * 300

/-- Rust `PointsCustom::oya_tsumo`. -/
def PointsCustom.oya_tsumo (p : PointsCustom) : Option Int :=
  if p.mode.has_tsumo then
    some (round_up_points (p.base_points * 2) + tsumo_honba_points p)
  else none

/-- Rust `PointsCustom::oya_ron`. -/
def PointsCustom.oya_ron (p : PointsCustom) : Option Int :=
  if p.mode.has_ron then
    some (round_up_points (p.base_points * 6) + ron_honba_points p)
  else none

/-- Rust `PointsCustom::ko_tsumo`. -/
def PointsCustom.ko_tsumo (p : PointsCustom) : Option (Int × Int) :=
  if p.mode.has_tsumo then
    some (round_up_points p.base_points + tsumo_honba_points p,
          round_up_points (p.base_points * 2) + tsumo_honba_points p)
  else none

/-- Rust `PointsCustom::ko_ron`. -/
def PointsCustom.ko_ron (p : PointsCustom) : Option Int :=
  if p.mode.has_ron then
    some (round_up_points (p.base_points * 4) + ron_honba_points p)
  else none

/-- Rust `MANGAN_HAN_RANGE.contains(&han)`: the range `5..=5`. -/
abbrev MANGAN_HAN_RANGE (han : Int) : Prop := 5 ≤ han ∧ han ≤ 5

/-- Rust `HANEMAN_HAN_RANGE.contains(&han)`: the range `6..=7`. -/
abbrev HANEMAN_HAN_RANGE (han : Int) : Prop := 6 ≤ han ∧ han ≤ 7

/-- Rust `BAIMAN_HAN_RANGE.contains(&han)`: the range `8..=10`. -/
abbrev BAIMAN_HAN_RANGE (han : Int) : Prop := 8 ≤ han ∧ han ≤ 10

/-- Rust `SANBAIMAN_HAN_RANGE.contains(&han)`: the range `11..=12`. -/
abbrev SANBAIMAN_HAN_RANGE (han : Int) : Prop := 11 ≤ han ∧ han ≤ 12

/-- Rust `KAZOE_YAKUMAN_HAN_RANGE.contains(&han)`: the range `13..`. -/
abbrev KAZOE_YAKUMAN_HAN_RANGE (han : Int) : Prop := 13 ≤ han

/-- Rust `VALID_FU` in `points.rs`. -/
def VALID_FU : List Int := [20, 25, 30, 40, 50, 60, 70, 80, 90, 100, 110]

/-- Rust `NO_TSUMO` in `points.rs`. -/
def NO_TSUMO : List (Int × Int) := [(1, 20), (1, 25), (2, 25)]

/-- Rust `has_tsumo` in `points.rs`. -/
def has_tsumo (han fu : Int) : Bool := !(NO_TSUMO.contains (han, fu))

/-- Rust `NO_RON` in `points.rs`. -/
def NO_RON : List (Int × Int) := [(1, 20), (1, 25), (2, 20), (3, 20), (4, 20)]

/-- Rust `has_ron` in `points.rs`. -/
def has_ron (han fu : Int) : Bool := !(NO_RON.contains (han, fu))

/-- Rust `MIN_USABLE_HAN = -(i32::BITS as i32)` in `from_calculated`. -/
def MIN_USABLE_HAN : Int := -32

/-- The base-points computation inside `from_calculated` (the `power` /
`points_base` block): `power = han + 2`; if positive, `2^power * fu`;
otherwise clamp the negated power to 32, with `multiplier = 2^power`,
ceiling-divide positive `fu` and truncation-divide non-positive `fu`. -/
def points_base (han fu : Int) : Int :=
  let power := han + 2
  if 0 < power then 2 ^ power.toNat * fu
  else
    let powerClamped := (-(max power MIN_USABLE_HAN)).toNat
    let multiplier : Int := 2 ^ powerClamped
    if 0 < fu then (fu + multiplier - 1).tdiv multiplier
    else fu.tdiv multiplier

/-- Rust `PointsCustom::from_calculated`, with the early returns of the Rust
function rendered as a chain of guarded alternatives in order. -/
def from_calculated (calculation_mode : PointsCalculationMode) (han fu honbas : Int) :
    Except PointCalculationError PointsCustom :=
  if calculation_mode = .Default ∧ han < 1 then
    .error (.InvalidHan han)
  else if calculation_mode = .Default ∧ fu ∉ VALID_FU then
    .error (.InvalidFu fu)
  else if calculation_mode = .Default ∧ honbas < 0 then
    .error (.InvalidHonbas honbas)
  else if calculation_mode ≠ .Unlimited ∧ MANGAN_HAN_RANGE han then
    .ok (mangan honbas)
  else if calculation_mode ≠ .Unlimited ∧ HANEMAN_HAN_RANGE han then
    .ok (haneman honbas)
  else if calculation_mode ≠ .Unlimited ∧ BAIMAN_HAN_RANGE han then
    .ok (baiman honbas)
  else if calculation_mode ≠ .Unlimited ∧ SANBAIMAN_HAN_RANGE han then
    .ok (sanbaiman honbas)
  else if calculation_mode ≠ .Unlimited ∧ KAZOE_YAKUMAN_HAN_RANGE han then
    .ok (yakuman honbas)
  else if calculation_mode ≠ .Unlimited ∧ 7900 / 4 ≤ points_base han fu then
    .ok (mangan honbas)
  else
    .ok (new_calculated (points_base han fu)
      (calculation_mode != .Default || has_tsumo han fu)
      (calculation_mode != .Default || has_ron han fu) honbas)

example : from_calculated .Default 4 30 0 = .ok (new_calculated 1920 true true 0) := by decide

example : (new_calculated 1920 true true 0).ko_ron = some 7700 := by decide

example : from_calculated .Loose 1 20 0 = .ok (new_calculated 160 true true 0) := by decide

example : (new_calculated 160 true true 0).ko_ron = some 700 := by decide

example : from_calculated .Unlimited 15 50 0 =
    .ok (new_calculated 6553600 true true 0) := by decide

example : (new_calculated 6553600 true true 0).ko_ron = some 26214400 := by decide

example : from_calculated .Default 5 40 3 = .ok (new_limited 2000 3) := by decide

example : (new_limited 2000 3).ko_ron = some 8900 := by decide

/-! ### Helper lemmas about integer division and rounding -/

/-- Ceiling division of a positive numerator, expressed two ways. -/
lemma add_sub_one_ediv {a m : Int} (hm : 0 < m) (_ha : 0 < a) :
    (a + (m - 1)) / m = -((-a) / m) := by
  have h0 := Int.ediv_add_emod (-a) m
  have h1 := Int.emod_nonneg (-a) (by omega : m ≠ 0)
  have h2 := Int.emod_lt_of_pos (-a) hm
  have hae : a + (m - 1) = (m - 1 - (-a) % m) + (-((-a) / m)) * m := by linarith
  rw [hae, Int.add_mul_ediv_right _ _ (by omega : m ≠ 0),
    Int.ediv_eq_zero_of_lt (by omega) (by omega)]
  omega

/-- A negative value no smaller than `-m` has euclidean quotient `-1` by `m`. -/
lemma ediv_neg_small {a m : Int} (hm : 0 < m) (h1 : -m ≤ a) (h2 : a < 0) :
    a / m = -1 := by
  have h3 : a / m = (a + m) / m + (-1) := by
    conv_lhs => rw [show a = (a + m) + (-1) * m by ring]
    exact Int.add_mul_ediv_right _ _ (by omega)
  have hz : (a + m) / m = 0 := Int.ediv_eq_zero_of_lt (by omega) (by omega)
  rw [h3, hz]
  norm_num

/-- The result of `round_up_to` is always a multiple of the divisor. -/
lemma round_up_to_dvd (v d : Int) : d ∣ round_up_to v d := by
  unfold round_up_to
  split
  · exact dvd_mul_left d _
  · exact dvd_mul_left d _

/-- Rounding with `round_up_to` fixes multiples of a positive divisor. -/
lemma round_up_to_of_dvd {v d : Int} (hd : 0 < d) (hv : d ∣ v) : round_up_to v d = v := by
  obtain ⟨k, rfl⟩ := hv
  unfold round_up_to
  split
  · rename_i hpos
    have hnum : (0:Int) ≤ d * k + (d - 1) := add_nonneg hpos.le (by omega)
    rw [Int.tdiv_eq_ediv hnum hd.le,
      show d * k + (d - 1) = (d - 1) + k * d by ring,
      Int.add_mul_ediv_right _ _ (by omega : d ≠ 0),
      Int.ediv_eq_zero_of_lt (by omega) (by omega)]
    ring
  · exact Int.tdiv_mul_cancel ⟨k, rfl⟩

/-- Claim C6: for every value and positive divisor, `round_up_to` computes
`((value + divisor - 1) / divisor) * divisor` (the least multiple of the
divisor that is at least the value, i.e. ceiling) when the value is
positive, and `(value / divisor) * divisor` with truncating division
(divide the magnitude, negate back) when the value is zero or negative. -/
theorem round_up_to_ceiling_or_truncation (value divisor : Int) (hd : 0 < divisor) :
    (0 < value →
      round_up_to value divisor = ((value + (divisor - 1)).tdiv divisor) * divisor ∧
      divisor ∣ round_up_to value divisor ∧
      value ≤ round_up_to value divisor ∧
      round_up_to value divisor < value + divisor) ∧
    (value ≤ 0 →
      round_up_to value divisor = (value.tdiv divisor) * divisor ∧
      value.tdiv divisor = -((-value) / divisor)) := by
  constructor
  · intro hv
    have heq : round_up_to value divisor =
        ((value + (divisor - 1)).tdiv divisor) * divisor := by
      unfold round_up_to
      rw [if_pos hv]
    refine ⟨heq, round_up_to_dvd value divisor, ?_, ?_⟩
    · have hnum : (0:Int) ≤ value + (divisor - 1) := by omega
      rw [heq, Int.tdiv_eq_ediv hnum hd.le]
      have h0 := Int.ediv_add_emod (value + (divisor - 1)) divisor
      have h1 := Int.emod_nonneg (value + (divisor - 1)) (by omega : divisor ≠ 0)
      have h2 := Int.emod_lt_of_pos (value + (divisor - 1)) hd
      nlinarith [h0, h1, h2]
    · have hnum : (0:Int) ≤ value + (divisor - 1) := by omega
      rw [heq, Int.tdiv_eq_ediv hnum hd.le]
      have h0 := Int.ediv_add_emod (value + (divisor - 1)) divisor
      have h1 := Int.emod_nonneg (value + (divisor - 1)) (by omega : divisor ≠ 0)
      nlinarith [h0, h1]
  · intro hv
    have heq : round_up_to value divisor = (value.tdiv divisor) * divisor := by
      unfold round_up_to
      rw [if_neg (by omega)]
    have h2 : (-value).tdiv divisor = -(value.tdiv divisor) := Int.neg_tdiv _ _
    have h1 : (-value).tdiv divisor = (-value) / divisor :=
      Int.tdiv_eq_ediv (by omega) hd.le
    exact ⟨heq, by omega⟩

/-- Witness for claim C6 at `value = 250` and `value = -250`, `divisor = 100`. -/
theorem round_up_to_ceiling_or_truncation_witness :
    ((0:Int) < 250 →
      round_up_to 250 100 = (((250:Int) + (100 - 1)).tdiv 100) * 100 ∧
      (100:Int) ∣ round_up_to 250 100 ∧
      (250:Int) ≤ round_up_to 250 100 ∧
      round_up_to 250 100 < 250 + 100) ∧
    ((-250:Int) ≤ 0 →
      round_up_to (-250) 100 = ((-250:Int).tdiv 100) * 100 ∧
      (-250:Int).tdiv 100 = -((-(-250:Int)) / 100)) :=
  ⟨(round_up_to_ceiling_or_truncation 250 100 (by decide)).1,
   (round_up_to_ceiling_or_truncation (-250) 100 (by decide)).2⟩

/-- Claim C9: rounding up to a multiple of 100 is idempotent, for positive,
zero and negative inputs. -/
theorem round_up_to_hundred_idempotent (x : Int) :
    round_up_to (round_up_to x 100) 100 = round_up_to x 100 :=
  round_up_to_of_dvd (by decide) (round_up_to_dvd x 100)

/-! ### Reduction of `from_calculated` to the general formula -/

/-- When validation passes (in Default mode) and han lies outside every tier
range (when a tier lookup happens at all), `from_calculated` reduces to the
general formula followed by the second tier check. -/
lemma from_calculated_general (mode : PointsCalculationMode) (han fu honbas : Int)
    (hval : mode = .Default → 1 ≤ han ∧ fu ∈ VALID_FU ∧ 0 ≤ honbas)
    (htier : mode ≠ .Unlimited → han ≤ 4) :
    from_calculated mode han fu honbas =
      if mode ≠ .Unlimited ∧ 7900 / 4 ≤ points_base han fu then
        .ok (mangan honbas)
      else
        .ok (new_calculated (points_base han fu)
          (mode != .Default || has_tsumo han fu)
          (mode != .Default || has_ron han fu) honbas) := by
  have h1 : ¬(mode = .Default ∧ han < 1) := by
    rintro ⟨hm, hh⟩
    have := (hval hm).1
    omega
  have h2 : ¬(mode = .Default ∧ fu ∉ VALID_FU) := by
    rintro ⟨hm, hh⟩
    exact hh (hval hm).2.1
  have h3 : ¬(mode = .Default ∧ honbas < 0) := by
    rintro ⟨hm, hh⟩
    have := (hval hm).2.2
    omega
  have h4 : ¬(mode ≠ .Unlimited ∧ MANGAN_HAN_RANGE han) := by
    rintro ⟨hm, hh1, hh2⟩
    have := htier hm
    omega
  have h5 : ¬(mode ≠ .Unlimited ∧ HANEMAN_HAN_RANGE han) := by
    rintro ⟨hm, hh1, hh2⟩
    have := htier hm
    omega
  have h6 : ¬(mode ≠ .Unlimited ∧ BAIMAN_HAN_RANGE han) := by
    rintro ⟨hm, hh1, hh2⟩
    have := htier hm
    omega
  have h7 : ¬(mode ≠ .Unlimited ∧ SANBAIMAN_HAN_RANGE han) := by
    rintro ⟨hm, hh1, hh2⟩
    have := htier hm
    omega
  have h8 : ¬(mode ≠ .Unlimited ∧ KAZOE_YAKUMAN_HAN_RANGE han) := by
    rintro ⟨hm, hh⟩
    have := htier hm
    have hk : (13:Int) ≤ han := hh
    omega
  unfold from_calculated
  rw [if_neg h1, if_neg h2, if_neg h3, if_neg h4, if_neg h5, if_neg h6, if_neg h7,
    if_neg h8]

/-- The positive-power branch of the base-points computation. -/
lemma points_base_pos {han fu : Int} (hp : 0 < han + 2) :
    points_base han fu = 2 ^ (han + 2).toNat * fu := by
  simp only [points_base]
  rw [if_pos hp]

/-- The non-positive-power branch of the base-points computation. -/
lemma points_base_neg {han fu : Int} (hp : han + 2 ≤ 0) :
    points_base han fu =
      if 0 < fu then
        (fu + 2 ^ (-(max (han + 2) (-32))).toNat - 1).tdiv
          (2 ^ (-(max (han + 2) (-32))).toNat)
      else fu.tdiv (2 ^ (-(max (han + 2) (-32))).toNat) := by
  simp only [points_base, MIN_USABLE_HAN]
  rw [if_neg (by omega)]

/-- Claim C1 as stated is false: at mode Unlimited, han = -3, fu = -3,
honba = 0 the formula runs with power = -1 and non-positive fu, the code
yields base points `(-3).tdiv 2 = -1` (truncation toward zero), while
rounding toward negative infinity would give `Int.fdiv (-3) 2 = -2`. -/
theorem negative_fu_rounding_counterexample :
    from_calculated .Unlimited (-3) (-3) 0 = .ok (new_calculated (-1) true true 0) ∧
    Int.fdiv (-3) (2 ^ (1:Nat)) = -2 ∧
    from_calculated .Unlimited (-3) (-3) 0 ≠
      .ok (new_calculated (Int.fdiv (-3) (2 ^ (1:Nat))) true true 0) := by
  refine ⟨by decide, by decide, ?_⟩
  intro h
  rw [show Int.fdiv (-3) (2 ^ (1:Nat)) = -2 by decide] at h
  exact absurd h (by decide)

/-- Claim C1 (amended): whenever `from_calculated` reaches the general
formula — always in Unlimited mode; in Default (with validation passing)
and Loose only when han is outside every tier range — with
`power = han + 2` and fu in the `i32` range: if power is non-negative the
base points equal `fu * 2 ^ power`; if power is negative the base points
equal fu divided by `2 ^ (-power)`, rounded toward positive infinity when
fu is positive and truncated toward zero when fu is non-positive. -/
theorem from_calculated_general_formula (mode : PointsCalculationMode)
    (han fu honbas : Int)
    (hfu_lo : -(2 ^ 31) ≤ fu) (hfu_hi : fu < 2 ^ 31)
    (hval : mode = .Default → 1 ≤ han ∧ fu ∈ VALID_FU ∧ 0 ≤ honbas)
    (htier : mode ≠ .Unlimited → han ≤ 4) :
    (0 ≤ han + 2 → points_base han fu = fu * 2 ^ (han + 2).toNat) ∧
    (han + 2 < 0 → 0 < fu →
      points_base han fu = -(Int.fdiv (-fu) (2 ^ (-(han + 2)).toNat))) ∧
    (han + 2 < 0 → fu ≤ 0 →
      points_base han fu = Int.tdiv fu (2 ^ (-(han + 2)).toNat)) ∧
    from_calculated mode han fu honbas =
      (if mode ≠ .Unlimited ∧ 7900 / 4 ≤ points_base han fu then
        .ok (mangan honbas)
      else
        .ok (new_calculated (points_base han fu)
          (mode != .Default || has_tsumo han fu)
          (mode != .Default || has_ron han fu) honbas)) := by
  refine ⟨?_, ?_, ?_, from_calculated_general mode han fu honbas hval htier⟩
  · intro h0
    by_cases hp : 0 < han + 2
    · rw [points_base_pos hp, mul_comm]
    · have hp0 : han + 2 = 0 := by omega
      rw [points_base_neg (by omega), hp0]
      norm_num [Int.tdiv_one]
  · intro hneg hfu
    rw [points_base_neg (by omega), if_pos hfu]
    have hE0 : (0:Int) ≤ -(han + 2) := by omega
    rcases le_or_lt (-32 : Int) (han + 2) with hc | hc
    · have hmax : max (han + 2) (-32 : Int) = han + 2 := max_eq_left hc
      rw [hmax]
      have hm : (0:Int) < 2 ^ (-(han + 2)).toNat := by positivity
      have hshape : fu + 2 ^ (-(han + 2)).toNat - 1 =
          fu + (2 ^ (-(han + 2)).toNat - 1) := by ring
      rw [hshape, Int.tdiv_eq_ediv (by linarith) hm.le, add_sub_one_ediv hm hfu,
        Int.fdiv_eq_ediv _ hm.le]
    · have hmax : max (han + 2) (-32 : Int) = -32 := max_eq_right (by omega)
      rw [hmax, show (-(-32:Int)).toNat = 32 by decide]
      have hE : 33 ≤ (-(han + 2)).toNat := by omega
      have hpow : (2:Int) ^ 31 ≤ 2 ^ (-(han + 2)).toNat := by
        have hn : (2:Nat) ^ 31 ≤ 2 ^ (-(han + 2)).toNat :=
          Nat.pow_le_pow_right (by norm_num) (by omega)
        exact_mod_cast hn
      have hm32 : (0:Int) < 2 ^ (32:Nat) := by positivity
      have hmE : (0:Int) < 2 ^ (-(han + 2)).toNat := by positivity
      have h31 : fu < 2 ^ (32:Nat) := by
        have : (2:Int) ^ 31 < 2 ^ (32:Nat) := by norm_num
        omega
      have hshape : fu + 2 ^ (32:Nat) - 1 = fu + ((2:Int) ^ (32:Nat) - 1) := by ring
      rw [hshape, Int.tdiv_eq_ediv (by linarith) hm32.le,
        add_sub_one_ediv hm32 hfu, Int.fdiv_eq_ediv _ hmE.le,
        ediv_neg_small hm32 (by omega) (by omega),
        ediv_neg_small hmE (by omega) (by omega)]
  · intro hneg hfu
    rw [points_base_neg (by omega), if_neg (by omega)]
    rcases le_or_lt (-32 : Int) (han + 2) with hc | hc
    · rw [max_eq_left hc]
    · rw [max_eq_right (by omega : han + 2 ≤ (-32:Int)),
        show (-(-32:Int)).toNat = 32 by decide]
      have hE : 33 ≤ (-(han + 2)).toNat := by omega
      have hpow : (2:Int) ^ (32:Nat) ≤ 2 ^ (-(han + 2)).toNat := by
        have hn : (2:Nat) ^ 32 ≤ 2 ^ (-(han + 2)).toNat :=
          Nat.pow_le_pow_right (by norm_num) (by omega)
        exact_mod_cast hn
      have h31 : (2:Int) ^ 31 < 2 ^ (32:Nat) := by norm_num
      have hz1 : (-fu).tdiv (2 ^ (32:Nat)) = 0 :=
        Int.tdiv_eq_zero_of_lt (by omega) (by omega)
      have hz2 : (-fu).tdiv (2 ^ (-(han + 2)).toNat) = 0 :=
        Int.tdiv_eq_zero_of_lt (by omega) (by omega)
      have hn1 := Int.neg_tdiv fu ((2:Int) ^ (32:Nat))
      have hn2 := Int.neg_tdiv fu ((2:Int) ^ (-(han + 2)).toNat)
      omega

/-- Witness for the amended claim C1 in the negative-power regime:
mode Unlimited, han = -4, fu = 30 (power = -2, base = ceil(30/4) = 8). -/
theorem from_calculated_general_formula_witness :
    ((0:Int) ≤ -4 + 2 → points_base (-4) 30 = 30 * 2 ^ ((-4:Int) + 2).toNat) ∧
    ((-4:Int) + 2 < 0 → (0:Int) < 30 →
      points_base (-4) 30 = -(Int.fdiv (-30) (2 ^ (-((-4:Int) + 2)).toNat))) ∧
    ((-4:Int) + 2 < 0 → (30:Int) ≤ 0 →
      points_base (-4) 30 = Int.tdiv 30 (2 ^ (-((-4:Int) + 2)).toNat)) ∧
    from_calculated .Unlimited (-4) 30 0 =
      (if PointsCalculationMode.Unlimited ≠ .Unlimited ∧ 7900 / 4 ≤ points_base (-4) 30 then
        .ok (mangan 0)
      else
        .ok (new_calculated (points_base (-4) 30)
          (PointsCalculationMode.Unlimited != .Default || has_tsumo (-4) 30)
          (PointsCalculationMode.Unlimited != .Default || has_ron (-4) 30) 0)) :=
  from_calculated_general_formula .Unlimited (-4) 30 0 (by decide) (by decide)
    (by intro h; exact absurd h (by decide)) (by intro h; exact absurd rfl h)

/-- In Unlimited mode no tier lookup and no promotion happens: the result is
always the Calculated value of the general formula, with both payments
available. -/
lemma from_calculated_unlimited (han fu honbas : Int) :
    from_calculated .Unlimited han fu honbas =
      .ok (new_calculated (points_base han fu) true true honbas) := by
  unfold from_calculated
  simp
  rfl

/-- Claim C2: in every mode other than Unlimited (Default once its
validation passes, Loose unconditionally), for every fu and honba the tier
lookup returns the fixed Limited base points — 2000 for 5 han, 3000 for
6..7, 4000 for 8..10, 6000 for 11..12, 8000 for 13 and above — while in
Unlimited mode the result is always a Calculated value, never Limited. -/
theorem from_calculated_tier_table (mode : PointsCalculationMode) (han fu honbas : Int)
    (hval : mode = .Default → fu ∈ VALID_FU ∧ 0 ≤ honbas) :
    (mode ≠ .Unlimited →
      (han = 5 →
        from_calculated mode han fu honbas = .ok (new_limited 2000 honbas)) ∧
      (6 ≤ han ∧ han ≤ 7 →
        from_calculated mode han fu honbas = .ok (new_limited 3000 honbas)) ∧
      (8 ≤ han ∧ han ≤ 10 →
        from_calculated mode han fu honbas = .ok (new_limited 4000 honbas)) ∧
      (11 ≤ han ∧ han ≤ 12 →
        from_calculated mode han fu honbas = .ok (new_limited 6000 honbas)) ∧
      (13 ≤ han →
        from_calculated mode han fu honbas = .ok (new_limited 8000 honbas))) ∧
    (mode = .Unlimited →
      from_calculated mode han fu honbas =
        .ok (new_calculated (points_base han fu) true true honbas)) := by
  constructor
  · intro hm
    have hv2 : ¬(mode = .Default ∧ fu ∉ VALID_FU) := by
      rintro ⟨hd, hh⟩
      exact hh (hval hd).1
    have hv3 : ¬(mode = .Default ∧ honbas < 0) := by
      rintro ⟨hd, hh⟩
      have := (hval hd).2
      omega
    refine ⟨?_, ?_, ?_, ?_, ?_⟩
    · intro hhan
      unfold from_calculated
      rw [if_neg (by rintro ⟨_, h⟩; omega), if_neg hv2, if_neg hv3,
        if_pos ⟨hm, by omega, by omega⟩]
      rfl
    · intro hhan
      unfold from_calculated
      rw [if_neg (by rintro ⟨_, h⟩; omega), if_neg hv2, if_neg hv3,
        if_neg (by rintro ⟨_, h1, h2⟩; omega), if_pos ⟨hm, by omega, by omega⟩]
      rfl
    · intro hhan
      unfold from_calculated
      rw [if_neg (by rintro ⟨_, h⟩; omega), if_neg hv2, if_neg hv3,
        if_neg (by rintro ⟨_, h1, h2⟩; omega),
        if_neg (by rintro ⟨_, h1, h2⟩; omega), if_pos ⟨hm, by omega, by omega⟩]
      rfl
    · intro hhan
      unfold from_calculated
      rw [if_neg (by rintro ⟨_, h⟩; omega), if_neg hv2, if_neg hv3,
        if_neg (by rintro ⟨_, h1, h2⟩; omega),
        if_neg (by rintro ⟨_, h1, h2⟩; omega),
        if_neg (by rintro ⟨_, h1, h2⟩; omega), if_pos ⟨hm, by omega, by omega⟩]
      rfl
    · intro hhan
      unfold from_calculated
      rw [if_neg (by rintro ⟨_, h⟩; omega), if_neg hv2, if_neg hv3,
        if_neg (by rintro ⟨_, h1, h2⟩; omega),
        if_neg (by rintro ⟨_, h1, h2⟩; omega),
        if_neg (by rintro ⟨_, h1, h2⟩; omega),
        if_neg (by rintro ⟨_, h1, h2⟩; omega), if_pos ⟨hm, by omega⟩]
      rfl
  · intro hm
    subst hm
    exact from_calculated_unlimited han fu honbas

/-- Witness for claim C2: Default mode, 5 han, 30 fu, 0 honba is Mangan. -/
theorem from_calculated_tier_table_witness :
    from_calculated .Default 5 30 0 = .ok (new_limited 2000 0) :=
  ((from_calculated_tier_table .Default 5 30 0
    (fun _ => ⟨by decide, by decide⟩)).1 (by decide)).1 rfl

/-- Claim C3: in every mode other than Unlimited, a general-formula base of
at least 1975 = 7900/4 is promoted to Mangan; in Unlimited mode this
promotion never happens and the computed value is returned unchanged. -/
theorem from_calculated_mangan_promotion (mode : PointsCalculationMode)
    (han fu honbas : Int)
    (hval : mode = .Default → 1 ≤ han ∧ fu ∈ VALID_FU ∧ 0 ≤ honbas) :
    (mode ≠ .Unlimited → han ≤ 4 → 1975 ≤ points_base han fu →
      from_calculated mode han fu honbas = .ok (new_limited 2000 honbas)) ∧
    (mode = .Unlimited →
      from_calculated mode han fu honbas =
        .ok (new_calculated (points_base han fu) true true honbas)) := by
  constructor
  · intro hm htier hbase
    rw [from_calculated_general mode han fu honbas hval (fun _ => htier),
      if_pos ⟨hm, by omega⟩]
    rfl
  · intro hm
    subst hm
    exact from_calculated_unlimited han fu honbas

/-- Witness for claim C3: Default mode, 4 han, 110 fu computes base 7040,
which is promoted to Mangan. -/
theorem from_calculated_mangan_promotion_witness :
    from_calculated .Default 4 110 0 = .ok (new_limited 2000 0) :=
  (from_calculated_mangan_promotion .Default 4 110 0
    (fun _ => ⟨by decide, by decide, by decide⟩)).1 (by decide) (by decide) (by decide)

/-- Whenever validation passes, `from_calculated` succeeds. -/
lemma from_calculated_isOk (mode : PointsCalculationMode) (han fu honbas : Int)
    (h : mode = .Default → 1 ≤ han ∧ fu ∈ VALID_FU ∧ 0 ≤ honbas) :
    ∃ p, from_calculated mode han fu honbas = .ok p := by
  unfold from_calculated
  split_ifs with h1 h2 h3 h4 h5 h6 h7 h8 h9
  · obtain ⟨hd, hh⟩ := h1
    have := (h hd).1
    omega
  · obtain ⟨hd, hh⟩ := h2
    exact absurd (h hd).2.1 hh
  · obtain ⟨hd, hh⟩ := h3
    have := (h hd).2.2
    omega
  all_goals exact ⟨_, rfl⟩

/-- Claim C4: `from_calculated` errs exactly in Default mode on invalid
input — `InvalidHan` iff han < 1, otherwise `InvalidFu` iff fu is not a
valid fu value, otherwise `InvalidHonbas` iff honba < 0 — and Loose and
Unlimited accept every combination. -/
theorem from_calculated_validation (mode : PointsCalculationMode) (han fu honbas : Int) :
    (from_calculated mode han fu honbas = .error (.InvalidHan han) ↔
      mode = .Default ∧ han < 1) ∧
    (from_calculated mode han fu honbas = .error (.InvalidFu fu) ↔
      mode = .Default ∧ 1 ≤ han ∧ fu ∉ VALID_FU) ∧
    (from_calculated mode han fu honbas = .error (.InvalidHonbas honbas) ↔
      mode = .Default ∧ 1 ≤ han ∧ fu ∈ VALID_FU ∧ honbas < 0) ∧
    ((∃ e, from_calculated mode han fu honbas = .error e) ↔
      mode = .Default ∧ (han < 1 ∨ fu ∉ VALID_FU ∨ honbas < 0)) := by
  by_cases hm : mode = .Default
  case neg =>
    obtain ⟨p, hp⟩ := from_calculated_isOk mode han fu honbas (fun hd => absurd hd hm)
    rw [hp]
    simp [hm]
  case pos =>
    subst hm
    by_cases h1 : han < 1
    · have hres : from_calculated .Default han fu honbas = .error (.InvalidHan han) := by
        unfold from_calculated
        rw [if_pos ⟨rfl, h1⟩]
      rw [hres]
      refine ⟨by simp [h1], ?_, ?_, by simp [h1]⟩
      · simp [show ¬(1 ≤ han) by omega]
      · simp [show ¬(1 ≤ han) by omega]
    · by_cases h2 : fu ∈ VALID_FU
      case neg =>
        have hres : from_calculated .Default han fu honbas = .error (.InvalidFu fu) := by
          unfold from_calculated
          rw [if_neg (by rintro ⟨_, hh⟩; exact h1 hh), if_pos ⟨rfl, h2⟩]
        rw [hres]
        refine ⟨by simp [h1], ?_, by simp [h2], by simp [h2]⟩
        simp [h2]
        omega
      case pos =>
        by_cases h3 : honbas < 0
        · have hres : from_calculated .Default han fu honbas =
              .error (.InvalidHonbas honbas) := by
            unfold from_calculated
            rw [if_neg (by rintro ⟨_, hh⟩; exact h1 hh),
              if_neg (by rintro ⟨_, hh⟩; exact hh h2), if_pos ⟨rfl, h3⟩]
          rw [hres]
          refine ⟨by simp [h1], by simp [h2], ?_, by simp [h2, h3, h1]⟩
          simp [h2, h3]
          omega
        · obtain ⟨p, hp⟩ := from_calculated_isOk .Default han fu honbas
            (fun _ => ⟨by omega, h2, by omega⟩)
          rw [hp]
          simp [h1, h2, h3]

/-- Claim C5: on a Calculated result, in Default mode the tsumo payments
are undefined exactly on `NO_TSUMO = {(1,20),(1,25),(2,25)}` and the ron
payments exactly on `NO_RON = {(1,20),(1,25),(2,20),(3,20),(4,20)}`; in
Loose and Unlimited modes every payment of a Calculated result is
defined. -/
theorem from_calculated_availability (mode : PointsCalculationMode)
    (han fu honbas : Int) (p : PointsCustom)
    (hok : from_calculated mode han fu honbas = .ok p)
    (hcalc : p.is_calculated = true) :
    (mode = .Default →
      (p.oya_tsumo = none ↔ (han, fu) ∈ NO_TSUMO) ∧
      (p.ko_tsumo = none ↔ (han, fu) ∈ NO_TSUMO) ∧
      (p.oya_ron = none ↔ (han, fu) ∈ NO_RON) ∧
      (p.ko_ron = none ↔ (han, fu) ∈ NO_RON)) ∧
    (mode ≠ .Default →
      p.oya_tsumo.isSome = true ∧ p.ko_tsumo.isSome = true ∧
      p.oya_ron.isSome = true ∧ p.ko_ron.isSome = true) := by
  have hshape : p = new_calculated (points_base han fu)
      (mode != .Default || has_tsumo han fu)
      (mode != .Default || has_ron han fu) honbas := by
    unfold from_calculated at hok
    split_ifs at hok
    · obtain rfl := (Except.ok.inj hok).symm
      simp [PointsCustom.is_calculated, mangan, new_limited] at hcalc
    · obtain rfl := (Except.ok.inj hok).symm
      simp [PointsCustom.is_calculated, haneman, new_limited] at hcalc
    · obtain rfl := (Except.ok.inj hok).symm
      simp [PointsCustom.is_calculated, baiman, new_limited] at hcalc
    · obtain rfl := (Except.ok.inj hok).symm
      simp [PointsCustom.is_calculated, sanbaiman, new_limited] at hcalc
    · obtain rfl := (Except.ok.inj hok).symm
      simp [PointsCustom.is_calculated, yakuman, new_limited] at hcalc
    · obtain rfl := (Except.ok.inj hok).symm
      simp [PointsCustom.is_calculated, mangan, new_limited] at hcalc
    · exact (Except.ok.inj hok).symm
  subst hshape
  constructor
  · rintro rfl
    simp only [PointsCustom.oya_tsumo, PointsCustom.ko_tsumo, PointsCustom.oya_ron,
      PointsCustom.ko_ron, new_calculated, PointsMode.has_tsumo, PointsMode.has_ron,
      has_tsumo, has_ron, List.contains, bne_self_eq_false, Bool.false_or]
    refine ⟨?_, ?_, ?_, ?_⟩ <;>
      by_cases hmem : (han, fu) ∈ NO_TSUMO <;>
        by_cases hmem2 : (han, fu) ∈ NO_RON <;>
          simp [hmem, hmem2, List.elem_eq_mem]
  · intro hne
    have hb : (mode != PointsCalculationMode.Default) = true := by
      simpa using hne
    simp [PointsCustom.oya_tsumo, PointsCustom.ko_tsumo, PointsCustom.oya_ron,
      PointsCustom.ko_ron, new_calculated, PointsMode.has_tsumo, PointsMode.has_ron, hb]

/-- Witness for claim C5: Default mode, 2 han, 25 fu yields a Calculated
result whose tsumo payment is undefined. -/
theorem from_calculated_availability_witness :
    (new_calculated 400 false true 0).oya_tsumo = none :=
  (((from_calculated_availability .Default 2 25 0 (new_calculated 400 false true 0)
    (by decide) (by decide)).1 rfl).1).mpr (by decide)

/-- Claim C7: with base points and mode fixed, raising the stored honba
count by one raises every defined tsumo payment by exactly 100 and every
defined ron payment by exactly 300. -/
theorem payments_honba_linearity (base honbas : Int) (m : PointsMode) :
    (∀ v, (PointsCustom.mk base honbas m).oya_tsumo = some v →
      (PointsCustom.mk base (honbas + 1) m).oya_tsumo = some (v + 100)) ∧
    (∀ a b, (PointsCustom.mk base honbas m).ko_tsumo = some (a, b) →
      (PointsCustom.mk base (honbas + 1) m).ko_tsumo = some (a + 100, b + 100)) ∧
    (∀ v, (PointsCustom.mk base honbas m).oya_ron = some v →
      (PointsCustom.mk base (honbas + 1) m).oya_ron = some (v + 300)) ∧
    (∀ v, (PointsCustom.mk base honbas m).ko_ron = some v →
      (PointsCustom.mk base (honbas + 1) m).ko_ron = some (v + 300)) := by
  by_cases ht : m.has_tsumo <;> by_cases hr : m.has_ron <;>
    refine ⟨?_, ?_, ?_, ?_⟩ <;>
      simp [PointsCustom.oya_tsumo, PointsCustom.ko_tsumo, PointsCustom.oya_ron,
        PointsCustom.ko_ron, tsumo_honba_points, ron_honba_points, ht, hr] <;>
        omega

/-- Witness for claim C7: base 300, honba 2 to 3 raises the dealer tsumo
payment from 800 to 900. -/
theorem payments_honba_linearity_witness :
    (PointsCustom.mk 300 (2 + 1) (.Calculated true true)).oya_tsumo = some (800 + 100) :=
  (payments_honba_linearity 300 2 (.Calculated true true)).1 800 (by decide)

/-- Claim C8: the second component of `ko_tsumo` always equals `oya_tsumo`,
and the two are defined on exactly the same values. -/
theorem ko_tsumo_snd_eq_oya_tsumo (p : PointsCustom) :
    Option.map Prod.snd p.ko_tsumo = p.oya_tsumo ∧
    (p.ko_tsumo.isSome = true ↔ p.oya_tsumo.isSome = true) := by
  by_cases hm : p.mode.has_tsumo <;>
    simp [PointsCustom.ko_tsumo, PointsCustom.oya_tsumo, hm]

/-- With han at most -34 the shift exponent is clamped to 32 bits, so for
fu in the `i32` range the base points are 1 for positive fu and 0
otherwise. -/
lemma points_base_clamped {han fu : Int} (hhan : han ≤ -34)
    (hlo : -(2 ^ 31) ≤ fu) (hhi : fu < 2 ^ 31) :
    points_base han fu = if 0 < fu then 1 else 0 := by
  rw [points_base_neg (by omega), max_eq_right (by omega : han + 2 ≤ (-32:Int)),
    show (-(-32:Int)).toNat = 32 by decide]
  have h31 : (2:Int) ^ 31 < 2 ^ (32:Nat) := by norm_num
  by_cases hfu : 0 < fu
  · rw [if_pos hfu, if_pos hfu]
    rw [Int.tdiv_eq_ediv (by omega) (by positivity),
      show fu + 2 ^ (32:Nat) - 1 = (fu - 1) + 1 * 2 ^ (32:Nat) by ring,
      Int.add_mul_ediv_right _ _ (by positivity : ((2:Int) ^ (32:Nat)) ≠ 0),
      Int.ediv_eq_zero_of_lt (by omega) (by omega)]
    norm_num
  · rw [if_neg hfu, if_neg hfu]
    have hz : (-fu).tdiv (2 ^ (32:Nat)) = 0 :=
      Int.tdiv_eq_zero_of_lt (by omega) (by omega)
    have hn := Int.neg_tdiv fu ((2:Int) ^ (32:Nat))
    omega

/-- Claim C10: in Unlimited mode, any two han values at most -34 give
identical results for every fu in the `i32` range: base points 1 for
positive fu (hence with zero honba every payment is 100) and 0 for
non-positive fu, independent of how negative han is. -/
theorem from_calculated_clamped_power (han1 han2 fu honbas : Int)
    (h1 : han1 ≤ -34) (h2 : han2 ≤ -34)
    (hlo : -(2 ^ 31) ≤ fu) (hhi : fu < 2 ^ 31) :
    from_calculated .Unlimited han1 fu honbas =
      from_calculated .Unlimited han2 fu honbas ∧
    (0 < fu → from_calculated .Unlimited han1 fu honbas =
      .ok (new_calculated 1 true true honbas)) ∧
    (fu ≤ 0 → from_calculated .Unlimited han1 fu honbas =
      .ok (new_calculated 0 true true honbas)) ∧
    (0 < fu →
      (new_calculated 1 true true 0).oya_tsumo = some 100 ∧
      (new_calculated 1 true true 0).ko_tsumo = some (100, 100) ∧
      (new_calculated 1 true true 0).oya_ron = some 100 ∧
      (new_calculated 1 true true 0).ko_ron = some 100) := by
  have e1 := from_calculated_unlimited han1 fu honbas
  have e2 := from_calculated_unlimited han2 fu honbas
  have b1 := points_base_clamped h1 hlo hhi
  have b2 := points_base_clamped h2 hlo hhi
  refine ⟨?_, ?_, ?_, fun _ => by decide⟩
  · rw [e1, e2, b1, b2]
  · intro hf
    rw [e1, b1, if_pos hf]
  · intro hf
    rw [e1, b1, if_neg (by omega)]

/-- Witness for claim C10: han = -34 and han = -100 at 7 fu both give base
points 1. -/
theorem from_calculated_clamped_power_witness :
    from_calculated .Unlimited (-34) 7 5 = .ok (new_calculated 1 true true 5) :=
  (from_calculated_clamped_power (-34) (-100) 7 5 (by decide) (by decide)
    (by decide) (by decide)).2.1 (by decide)

end Riichi
